import Mathlib

set_option maxRecDepth 8000

/-
Shallow embedding of the regex grammar compiler of the DB repository
(src/regex.c, src/regex.h, src/regex_nfa.c).  C pointer structures are
modelled by lists and indices; machine characters by Lean Char (the
grammars involved are ASCII); C malloc is modelled as never failing, so
every allocation-failure path of the source is absent here.  Loops of
the source that are not structurally terminating are modelled with an
explicit fuel parameter; exhausting the fuel is reported by a dedicated
outcome so that genuine divergence of the source is provable.
-/

namespace Db

/-- Outcome of a translated C routine: a value, a crash (a violated
precondition of the source, such as reading past the end of the input
buffer), or exhaustion of the fuel used to model unbounded C loops. -/
inductive PRes (α : Type) where
  | ok (a : α)
  | crash
  | fuelOut
deriving DecidableEq, Repr

/-- Node of the expression tree, struct regex_node of src/regex.h.
The C union regex_data is flattened into the constructors.  The field
named end in C is called stop here (end is a Lean keyword).  A
reference holds the identity of a symbol-table entry: in C a pointer,
here the index of the entry in the ordered symbol list. -/
inductive RegexNode where
  | sequence (left right : RegexNode)
  | branch (left right : RegexNode)
  | range (start stop : Nat)
  | loop (body : RegexNode)
  | reference (symbol : Nat)
deriving DecidableEq, Repr

/-- struct regex_symbol of src/regex.h (the prev and next links of the
C intrusive list are represented by the position in the list). -/
structure RegexSymbol where
  name : List Char
  lexeme : Bool
  expression : Option RegexNode
deriving DecidableEq, Repr

/-- struct regex_parser of src/regex.c together with the symbol table
it is threaded with (the C code passes parser and symbols side by
side); len is buf.length. -/
structure ParserState where
  buf : List Char
  pos : Nat
  err : Option String
  line : Nat
  col : Nat
  syms : List RegexSymbol
deriving DecidableEq, Repr

/-- Sequencing of translated routines: propagate crash and fuel
exhaustion, otherwise continue with the produced value and state. -/
def pb {α β : Type} (r : PRes α × ParserState)
    (f : α → ParserState → PRes β × ParserState) : PRes β × ParserState :=
  match r with
  | (PRes.ok a, s) => f a s
  | (PRes.crash, s) => (PRes.crash, s)
  | (PRes.fuelOut, s) => (PRes.fuelOut, s)

def REGEX_PARSER_COMMENT : Char := '#'
def REGEX_PARSER_LEXEME : Char := '@'
def REGEX_PARSER_BRANCH_SEPARATOR : Char := '|'
def REGEX_PARSER_GROUP_START : Char := '('
def REGEX_PARSER_GROUP_END : Char := ')'
def REGEX_PARSER_STATEMENT_END : Char := ';'
def REGEX_PARSER_LITERAL : Char := '"'
def REGEX_PARSER_ESCAPE : Char := '\\'
def REGEX_PARSER_LOOP : Char := '*'
def REGEX_PARSER_REFERENCE_PREFIX : Char := '$'
def REGEX_PARSER_RANGE_START : Char := '['
def REGEX_PARSER_RANGE_SEPARATOR : Char := '-'
def REGEX_PARSER_RANGE_END : Char := ']'

def MAX_REGEX_SYMBOL_NAME_LENGTH : Nat := 128

def err_literal_delim : String := "expected literal delimiter"
def err_bound_eof : String := "unexpected end of file, expected character range bound"
def err_bound_escape_eof : String := "unexpected end of file, expected escaped character bound"
def err_bound_char : String := "invalid character, expected character range bound"
def err_range_sep_eof : String := "unexpected end of file, expected range separator"
def err_range_sep_char : String := "unexpected character, expected range separator"
def err_ref_eof : String := "unexpected end of file, expected literal or expression end"
def err_ref_create : String := "symbol creation failed"
def err_group_eof : String := "unexpected end of file, expected statement end"
def err_group_char : String := "unexpected character, expected statement end"
def err_expr_eof : String := "unexpected end of file, expected literal or expression end"
def err_expr_char : String := "unexpected character, expected literal, group or statement end"
def err_loop_eof : String := "unexpected end of file, expected expression or statement end"
def err_seq_eof : String := "unexpected end of file, expected loop, expression or statement end"
def err_branch_eof : String := "unexpected end of file, expected sequence, loop, expression or statement end"
def err_branch_delim_eof : String := "unexpected end of file, expected branch delimiter or statement end"
def err_stmt_eof : String := "unexpected end of file, expected statement end"
def err_stmt_char : String := "unexpected character, expected statement end"
def err_name_too_long : String := "reference name too long"
def err_multiple_defs : String := "multiple definitions for symbol"
def err_symbol_eof : String := "unexpected end, expected symbol definition or statement end"

/-- is_whitespace of src/regex.c. -/
def is_whitespace (c : Char) : Bool := c == ' ' || c == '\t' || c == '\n'

/-- is_newline of src/regex.c. -/
def is_newline (c : Char) : Bool := c == '\n'

/-- is_identifier of src/regex.c (isalpha, isdigit and underscore;
the C library classifiers are ASCII here). -/
def is_identifier (c : Char) : Bool := c.isAlpha || c.isDigit || c == '_'

/-- parser_has_more of src/regex.c: pos differs from len. -/
def parser_has_more (s : ParserState) : Bool := s.pos != s.buf.length

/-- parser_peek of src/regex.c.  The source asserts pos != len and then
reads buf[pos]; reading at an exhausted position is the crash outcome. -/
def parser_peek (s : ParserState) : PRes Char :=
  match s.buf.get? s.pos with
  | some c => PRes.ok c
  | none => PRes.crash

/-- parser_skip of src/regex.c: advance one character, maintaining the
line and column counters. -/
def parser_skip (s : ParserState) : PRes Unit × ParserState :=
  match s.buf.get? s.pos with
  | none => (PRes.crash, s)
  | some c =>
    if is_newline c then
      (PRes.ok (), { s with pos := s.pos + 1, line := s.line + 1, col := 1 })
    else
      (PRes.ok (), { s with pos := s.pos + 1, col := s.col + 1 })

/-- Iteration core of parser_skip_while; the counter bounds the number
of iterations by the remaining input, which the C loop cannot exceed
since every iteration advances pos. -/
def skip_while_go (pred : Char → Bool) : Nat → ParserState → ParserState
  | 0, s => s
  | n + 1, s =>
    match s.buf.get? s.pos with
    | none => s
    | some c => if pred c then skip_while_go pred n (parser_skip s).2 else s

/-- parser_skip_while of src/regex.c. -/
def parser_skip_while (pred : Char → Bool) (s : ParserState) : ParserState :=
  skip_while_go pred (s.buf.length - s.pos) s

/-- Iteration core of parser_skip_until. -/
def skip_until_go (pred : Char → Bool) : Nat → ParserState → ParserState
  | 0, s => s
  | n + 1, s =>
    match s.buf.get? s.pos with
    | none => s
    | some c => if pred c then s else skip_until_go pred n (parser_skip s).2

/-- parser_skip_until of src/regex.c. -/
def parser_skip_until (pred : Char → Bool) (s : ParserState) : ParserState :=
  skip_until_go pred (s.buf.length - s.pos) s

/-- parser_skip_whitespace of src/regex.c. -/
def parser_skip_whitespace (s : ParserState) : ParserState :=
  parser_skip_while is_whitespace s

/-- parser_skip_comment of src/regex.c: skip the hash, skip until the
newline, then skip the newline when input remains. -/
def parser_skip_comment (s : ParserState) : PRes Unit × ParserState :=
  pb (parser_skip s) fun _ s1 =>
    let s2 := parser_skip_until is_newline s1
    if parser_has_more s2 then parser_skip s2 else (PRes.ok (), s2)

/-- parser_copy_string of src/regex.c: the len bytes starting at pos. -/
def parser_copy_string (s : ParserState) (start len : Nat) : List Char :=
  (s.buf.drop start).take len

/-- regex_symbol_name_eq of src/regex.c: walk the stored
NUL-terminated name against len bytes of the buffer; equal exactly
when both are exhausted together with all characters matching. -/
def regex_symbol_name_eq : List Char → List Char → Bool
  | [], [] => true
  | [], _ :: _ => false
  | _ :: _, [] => false
  | l :: ls, r :: rs => l == r && regex_symbol_name_eq ls rs

/-- The symbol-table scan inside get_or_create_regex_symbol: index of
the first entry whose name matches. -/
def find_regex_symbol (name : List Char) : List RegexSymbol → Option Nat
  | [] => none
  | sym :: rest =>
    if regex_symbol_name_eq sym.name name then some 0
    else (find_regex_symbol name rest).map (· + 1)

/-- get_or_create_regex_symbol of src/regex.c.  Overlong names set the
parser error and return NULL (none); an existing entry is returned as
is; otherwise a fresh symbol with no expression and lexeme false is
appended at the tail of the ordered collection. -/
def get_or_create_regex_symbol (name_start name_len : Nat) (s : ParserState) :
    PRes (Option Nat) × ParserState :=
  if name_len + 1 > MAX_REGEX_SYMBOL_NAME_LENGTH then
    (PRes.ok none, { s with err := some err_name_too_long })
  else
    let name := parser_copy_string s name_start name_len
    match find_regex_symbol name s.syms with
    | some i => (PRes.ok (some i), s)
    | none =>
      (PRes.ok (some s.syms.length),
       { s with syms := s.syms ++ [{ name := name, lexeme := false, expression := none }] })

/-- check_regex_symbols of src/regex.c: 0 when every symbol has an
expression, otherwise -1 together with the name of the first symbol
without one (the name the source writes to the error log). -/
def check_regex_symbols : List RegexSymbol → Int × Option (List Char)
  | [] => (0, none)
  | sym :: rest =>
    match sym.expression with
    | none => (-1, some sym.name)
    | some _ => check_regex_symbols rest

/-- destroy_regex_node of src/regex.c, modelled as the trace of freed
nodes in free order: children of sequence, branch and loop nodes are
destroyed through their owning edges before the node itself; range and
reference nodes free only themselves, so a reference edge is never
followed. -/
def destroy_regex_node : RegexNode → List RegexNode
  | RegexNode.sequence l r =>
    destroy_regex_node l ++ destroy_regex_node r ++ [RegexNode.sequence l r]
  | RegexNode.branch l r =>
    destroy_regex_node l ++ destroy_regex_node r ++ [RegexNode.branch l r]
  | RegexNode.loop b => destroy_regex_node b ++ [RegexNode.loop b]
  | RegexNode.range a b => [RegexNode.range a b]
  | RegexNode.reference i => [RegexNode.reference i]

/-- destroy_regex_symbol of src/regex.c: the body of the source
function contains only an assertion, so nothing is freed, neither the
expression tree of the symbol nor the symbol record itself. -/
def destroy_regex_symbol (_sym : RegexSymbol) : List RegexNode := []

/-- destroy_regex_symbols of src/regex.c: walk the list and apply
destroy_regex_symbol to every entry, concatenating the free traces. -/
def destroy_regex_symbols : List RegexSymbol → List RegexNode
  | [] => []
  | sym :: rest => destroy_regex_symbol sym ++ destroy_regex_symbols rest

/-- Nodes owned by a tree through its Sequence, Branch and Loop edges,
each node counted once; Reference edges own nothing.  Written from the
wording of the specification for comparison with the destruction trace. -/
def owned_count : RegexNode → Nat
  | RegexNode.sequence l r => owned_count l + owned_count r + 1
  | RegexNode.branch l r => owned_count l + owned_count r + 1
  | RegexNode.loop b => owned_count b + 1
  | RegexNode.range _ _ => 1
  | RegexNode.reference _ => 1

/-- add_to_regex_tree of src/regex.c.  The C routine grows a
right-leaning spine of sequence or branch nodes using live parent
pointers, keeping a pointer to the last added operand; the state is
therefore exactly the list of operands added so far, and the root the
routine maintains is recovered by regex_tree_root. -/
def add_to_regex_tree (tree : List RegexNode) (node : RegexNode) : List RegexNode :=
  tree ++ [node]

/-- Root of the tree built by repeated add_to_regex_tree calls with
the given binary constructor: a right-leaning combination of the
operands, NULL (none) when nothing was added. -/
def regex_tree_root (mk : RegexNode → RegexNode → RegexNode) :
    List RegexNode → Option RegexNode
  | [] => none
  | [x] => some x
  | x :: y :: rest => (regex_tree_root mk (y :: rest)).map (mk x)

/-- Loop of parse_literal in src/regex.c, one fuel unit per iteration.
Note the branch taken on the escape character: exactly as in the
source, it records the escaped flag but does not skip the character,
so the parser position does not change before the next iteration. -/
def parse_literal_loop :
    Nat → Bool → List RegexNode → ParserState → PRes (Option RegexNode) × ParserState
  | 0, _, _, s => (PRes.fuelOut, s)
  | n + 1, escaped, tree, s =>
    if !(parser_has_more s) then
      (PRes.ok none, { s with err := some err_literal_delim })
    else
      pb (parser_peek s, s) fun c s =>
        if c == REGEX_PARSER_ESCAPE then
          parse_literal_loop n true tree s
        else if !escaped && c == REGEX_PARSER_LITERAL then
          pb (parser_skip s) fun _ s1 =>
            (PRes.ok (regex_tree_root RegexNode.sequence tree), s1)
        else
          let node := RegexNode.range c.toNat (c.toNat + 1)
          let tree1 := add_to_regex_tree tree node
          pb (parser_skip s) fun _ s1 => parse_literal_loop n false tree1 s1

/-- parse_literal of src/regex.c: skip the opening quote, then run the
scanning loop with an empty tree. -/
def parse_literal (fuel : Nat) (s : ParserState) : PRes (Option RegexNode) × ParserState :=
  pb (parser_skip s) fun _ s1 => parse_literal_loop fuel false [] s1

/-- parse_regex_range_bound of src/regex.c: read one character; after
an escape character read the next character instead, whatever it is;
a bare closing bracket is rejected. -/
def parse_regex_range_bound (s : ParserState) : PRes (Option Char) × ParserState :=
  if !(parser_has_more s) then
    (PRes.ok none, { s with err := some err_bound_eof })
  else
    pb (parser_peek s, s) fun c s =>
      pb (parser_skip s) fun _ s1 =>
        if c == REGEX_PARSER_ESCAPE then
          if !(parser_has_more s1) then
            (PRes.ok none, { s1 with err := some err_bound_escape_eof })
          else
            pb (parser_peek s1, s1) fun c2 s1 =>
              pb (parser_skip s1) fun _ s2 => (PRes.ok (some c2), s2)
        else if c == REGEX_PARSER_RANGE_END then
          (PRes.ok none, { s1 with err := some err_bound_char })
        else
          (PRes.ok (some c), s1)

/-- parse_regex_range of src/regex.c. -/
def parse_regex_range (s : ParserState) : PRes (Option RegexNode) × ParserState :=
  pb (parser_skip s) fun _ s1 =>
    let s2 := parser_skip_whitespace s1
    pb (parse_regex_range_bound s2) fun b1? s3 =>
      match b1? with
      | none => (PRes.ok none, s3)
      | some b1 =>
        let s4 := parser_skip_whitespace s3
        if !(parser_has_more s4) then
          (PRes.ok none, { s4 with err := some err_range_sep_eof })
        else
          pb (parser_peek s4, s4) fun c s4 =>
            if c != REGEX_PARSER_RANGE_SEPARATOR then
              (PRes.ok none, { s4 with err := some err_range_sep_char })
            else
              pb (parser_skip s4) fun _ s5 =>
                let s6 := parser_skip_whitespace s5
                pb (parse_regex_range_bound s6) fun b2? s7 =>
                  match b2? with
                  | none => (PRes.ok none, s7)
                  | some b2 =>
                    let s8 := parser_skip_whitespace s7
                    if !(parser_has_more s8) then
                      (PRes.ok none, { s8 with err := some err_range_sep_eof })
                    else
                      pb (parser_peek s8, s8) fun c2 s8 =>
                        if c2 != REGEX_PARSER_RANGE_END then
                          (PRes.ok none, { s8 with err := some err_range_sep_char })
                        else
                          pb (parser_skip s8) fun _ s9 =>
                            (PRes.ok (some (RegexNode.range b1.toNat b2.toNat)), s9)

/-- parse_regex_reference of src/regex.c: skip the dollar sign, scan
an identifier, resolve or create the symbol, and return a reference
node holding the symbol identity. -/
def parse_regex_reference (s : ParserState) : PRes (Option RegexNode) × ParserState :=
  pb (parser_skip s) fun _ s1 =>
    if !(parser_has_more s1) then
      (PRes.ok none, { s1 with err := some err_ref_eof })
    else
      let start := s1.pos
      let s2 := parser_skip_while is_identifier s1
      let len := s2.pos - start
      pb (get_or_create_regex_symbol start len s2) fun sym? s3 =>
        match sym? with
        | none => (PRes.ok none, { s3 with err := some err_ref_create })
        | some idx => (PRes.ok (some (RegexNode.reference idx)), s3)

mutual

/-- parse_regex_expression of src/regex.c: dispatch on the next
character to the literal, reference, group or range parser. -/
def parse_regex_expression : Nat → ParserState → PRes (Option RegexNode) × ParserState
  | 0, s => (PRes.fuelOut, s)
  | n + 1, s =>
    if !(parser_has_more s) then
      (PRes.ok none, { s with err := some err_expr_eof })
    else
      pb (parser_peek s, s) fun c s =>
        if c == REGEX_PARSER_LITERAL then parse_literal n s
        else if c == REGEX_PARSER_REFERENCE_PREFIX then parse_regex_reference s
        else if c == REGEX_PARSER_GROUP_START then parse_regex_group n s
        else if c == REGEX_PARSER_RANGE_START then parse_regex_range s
        else (PRes.ok none, { s with err := some err_expr_char })

/-- parse_regex_group of src/regex.c. -/
def parse_regex_group : Nat → ParserState → PRes (Option RegexNode) × ParserState
  | 0, s => (PRes.fuelOut, s)
  | n + 1, s =>
    pb (parser_skip s) fun _ s1 =>
      pb (parse_regex_branch n s1) fun b? s2 =>
        match b? with
        | none => (PRes.ok none, s2)
        | some b =>
          let s3 := parser_skip_whitespace s2
          if !(parser_has_more s3) then
            (PRes.ok none, { s3 with err := some err_group_eof })
          else
            pb (parser_peek s3, s3) fun c s3 =>
              if c != REGEX_PARSER_GROUP_END then
                (PRes.ok none, { s3 with err := some err_group_char })
              else
                pb (parser_skip s3) fun _ s4 => (PRes.ok (some b), s4)

/-- parse_regex_loop of src/regex.c: an expression optionally followed
by a star.  As in the source, end of input is tested before the
whitespace in front of the possible star is skipped. -/
def parse_regex_loop : Nat → ParserState → PRes (Option RegexNode) × ParserState
  | 0, s => (PRes.fuelOut, s)
  | n + 1, s =>
    pb (parse_regex_expression n s) fun body? s1 =>
      match body? with
      | none => (PRes.ok none, s1)
      | some body =>
        if !(parser_has_more s1) then
          (PRes.ok none, { s1 with err := some err_loop_eof })
        else
          let s2 := parser_skip_whitespace s1
          pb (parser_peek s2, s2) fun c s2 =>
            if c == REGEX_PARSER_LOOP then
              pb (parser_skip s2) fun _ s3 =>
                (PRes.ok (some (RegexNode.loop body)), s3)
            else
              (PRes.ok (some body), s2)

/-- parse_regex_sequence of src/regex.c. -/
def parse_regex_sequence : Nat → ParserState → PRes (Option RegexNode) × ParserState
  | 0, s => (PRes.fuelOut, s)
  | n + 1, s => parse_regex_sequence_loop n [] s

/-- Loop of parse_regex_sequence: collect loop expressions until a
statement end, group end or branch separator, then return the
right-leaning sequence of the collected operands. -/
def parse_regex_sequence_loop :
    Nat → List RegexNode → ParserState → PRes (Option RegexNode) × ParserState
  | 0, _, s => (PRes.fuelOut, s)
  | n + 1, tree, s =>
    if !(parser_has_more s) then
      (PRes.ok none, { s with err := some err_seq_eof })
    else
      pb (parser_peek s, s) fun c s =>
        if c == REGEX_PARSER_STATEMENT_END || c == REGEX_PARSER_GROUP_END ||
            c == REGEX_PARSER_BRANCH_SEPARATOR then
          (PRes.ok (regex_tree_root RegexNode.sequence tree), s)
        else
          pb (parse_regex_loop n s) fun node? s1 =>
            match node? with
            | none => (PRes.ok none, s1)
            | some node =>
              let tree1 := add_to_regex_tree tree node
              let s2 := parser_skip_whitespace s1
              parse_regex_sequence_loop n tree1 s2

/-- parse_regex_branch of src/regex.c. -/
def parse_regex_branch : Nat → ParserState → PRes (Option RegexNode) × ParserState
  | 0, s => (PRes.fuelOut, s)
  | n + 1, s => parse_regex_branch_loop n [] s

/-- Loop of parse_regex_branch: collect sequences separated by the
branch separator until a statement end or group end, returning the
right-leaning branch of the collected operands. -/
def parse_regex_branch_loop :
    Nat → List RegexNode → ParserState → PRes (Option RegexNode) × ParserState
  | 0, _, s => (PRes.fuelOut, s)
  | n + 1, tree, s =>
    if !(parser_has_more s) then
      (PRes.ok none, { s with err := some err_branch_eof })
    else
      pb (parser_peek s, s) fun c s =>
        if c == REGEX_PARSER_STATEMENT_END || c == REGEX_PARSER_GROUP_END then
          (PRes.ok (regex_tree_root RegexNode.branch tree), s)
        else
          pb (parse_regex_sequence n s) fun node? s1 =>
            match node? with
            | none => (PRes.ok none, s1)
            | some node =>
              let tree1 := add_to_regex_tree tree node
              if !(parser_has_more s1) then
                (PRes.ok none, { s1 with err := some err_branch_delim_eof })
              else
                pb (parser_peek s1, s1) fun c2 s1 =>
                  if c2 != REGEX_PARSER_BRANCH_SEPARATOR then
                    (PRes.ok (regex_tree_root RegexNode.branch tree1), s1)
                  else
                    pb (parser_skip s1) fun _ s2 =>
                      parse_regex_branch_loop n tree1 (parser_skip_whitespace s2)

end

/-- parse_regex_statement of src/regex.c: a branch followed by the
statement terminator. -/
def parse_regex_statement (fuel : Nat) (s : ParserState) :
    PRes (Option RegexNode) × ParserState :=
  pb (parse_regex_branch fuel s) fun b? s1 =>
    match b? with
    | none => (PRes.ok none, s1)
    | some b =>
      let s2 := parser_skip_whitespace s1
      if !(parser_has_more s2) then
        (PRes.ok none, { s2 with err := some err_stmt_eof })
      else
        pb (parser_peek s2, s2) fun c s2 =>
          if c != REGEX_PARSER_STATEMENT_END then
            (PRes.ok none, { s2 with err := some err_stmt_char })
          else
            pb (parser_skip s2) fun _ s3 => (PRes.ok (some b), s3)

/-- Opening of parse_symbol in src/regex.c: read the optional lexeme
marker and scan the identifier, returning the lexeme flag, the start
position of the name and its length. -/
def scan_symbol_name (s : ParserState) : PRes (Bool × Nat × Nat) × ParserState :=
  pb (parser_peek s, s) fun c s =>
    if c == REGEX_PARSER_LEXEME then
      pb (parser_skip s) fun _ s1 =>
        let name_start := s1.pos
        let s2 := parser_skip_while is_identifier s1
        (PRes.ok (true, name_start, s2.pos - name_start), s2)
    else
      let name_start := s.pos
      let s2 := parser_skip_while is_identifier s
      (PRes.ok (false, name_start, s2.pos - name_start), s2)

/-- parse_symbol of src/regex.c: resolve or create the named symbol,
reject it when its expression is already set, record the lexeme flag,
skip an optional comment, parse the statement and attach it as the
expression of the symbol.  The integer result mirrors the C result,
0 for success and -1 for failure. -/
def parse_symbol (fuel : Nat) (s : ParserState) : PRes Int × ParserState :=
  pb (scan_symbol_name s) fun info s1 =>
    pb (get_or_create_regex_symbol info.2.1 info.2.2 s1) fun sym? s2 =>
      match sym? with
      | none => (PRes.ok (-1), s2)
      | some idx =>
        match s2.syms.get? idx with
        | none => (PRes.crash, s2)
        | some sym =>
          if sym.expression.isSome then
            (PRes.ok (-1), { s2 with err := some err_multiple_defs })
          else
            let s3 := { s2 with syms := s2.syms.set idx { sym with lexeme := info.1 } }
            let s4 := parser_skip_whitespace s3
            if !(parser_has_more s4) then
              (PRes.ok (-1), { s4 with err := some err_symbol_eof })
            else
              pb (parser_peek s4, s4) fun c s4 =>
                pb (if c == REGEX_PARSER_COMMENT then
                      pb (parser_skip_comment s4) fun _ s5 =>
                        (PRes.ok (), parser_skip_whitespace s5)
                    else (PRes.ok (), s4)) fun _ s6 =>
                  if !(parser_has_more s6) then
                    (PRes.ok (-1), { s6 with err := some err_symbol_eof })
                  else
                    pb (parse_regex_statement fuel s6) fun expr? s7 =>
                      match expr? with
                      | none => (PRes.ok (-1), s7)
                      | some expr =>
                        match s7.syms.get? idx with
                        | none => (PRes.crash, s7)
                        | some sym2 =>
                          (PRes.ok 0,
                           { s7 with
                             syms := s7.syms.set idx { sym2 with expression := some expr } })

/-- Main loop of parse_regex_symbols in src/regex.c: while input
remains, skip whitespace, peek at the next character, and either skip
a comment or parse one symbol, stopping after the first failure.  As
in the source, the peek happens after the whitespace skip although end
of input was only tested before it. -/
def parse_symbols_loop : Nat → ParserState → PRes Unit × ParserState
  | 0, s => (PRes.fuelOut, s)
  | n + 1, s =>
    if !(parser_has_more s) then (PRes.ok (), s)
    else
      let s1 := parser_skip_whitespace s
      pb (parser_peek s1, s1) fun c s1 =>
        if c == REGEX_PARSER_COMMENT then
          pb (parser_skip_comment s1) fun _ s2 => parse_symbols_loop n s2
        else
          pb (parse_symbol n s1) fun r s2 =>
            if r != 0 then (PRes.ok (), s2)
            else parse_symbols_loop n s2

/-- Tail of parse_regex_symbols in src/regex.c: NULL when the parser
recorded an error, NULL when the completeness check fails, otherwise
the symbol table. -/
def parse_regex_symbols_finish (s : ParserState) : Option (List RegexSymbol) :=
  if s.err.isSome then none
  else if (check_regex_symbols s.syms).1 != 0 then none
  else some s.syms

/-- Fresh parser state over an input buffer, as set up by
read_regex_file in src/regex.c. -/
def init_parser_state (input : List Char) : ParserState :=
  { buf := input, pos := 0, err := none, line := 1, col := 1, syms := [] }

/-- parse_regex_symbols of src/regex.c, from an in-memory buffer. -/
def parse_regex_symbols (fuel : Nat) (input : List Char) :
    PRes (Option (List RegexSymbol)) :=
  match parse_symbols_loop fuel (init_parser_state input) with
  | (PRes.ok _, s) => PRes.ok (parse_regex_symbols_finish s)
  | (PRes.crash, _) => PRes.crash
  | (PRes.fuelOut, _) => PRes.fuelOut

/-- struct regex_state of src/regex.h.  The C fields named then and
end are called then_ and end_ here (Lean keywords); lower and upper
hold the bit pattern of the char fields. -/
structure RegexState where
  lower : Nat
  upper : Nat
  then_ : Nat
  otherwise : Nat
  end_ : Int
deriving DecidableEq, Repr

/-- struct regex_nfa of src/regex.h; size (the capacity of the state
buffer) is not represented, and the symbol names are lists of
characters. -/
structure RegexNfa where
  states : List RegexState
  symbols : List (List Char)
deriving DecidableEq, Repr

/-- add_regex_state of src/regex.c: append one state and return its
index.  The C code leaves the new state uninitialized; the claims
proved below only look at fields after the source assigns them. -/
def add_regex_state (nfa : RegexNfa) : RegexNfa × Nat :=
  ({ nfa with states := nfa.states ++
      [{ lower := 0, upper := 0, then_ := 0, otherwise := 0, end_ := 0 }] },
   nfa.states.length)

/-- Write one state of the automaton through its index; out-of-range
writes (impossible on the executed paths) leave the automaton as is. -/
def set_regex_state (nfa : RegexNfa) (i : Nat) (f : RegexState → RegexState) : RegexNfa :=
  match nfa.states.get? i with
  | none => nfa
  | some st => { nfa with states := nfa.states.set i (f st) }

/-- Result of a fragment builder of src/regex.c: the grown automaton
together with the first and last state of the fragment, or the -1
failure return. -/
inductive BuildOut where
  | ok (nfa : RegexNfa) (first last : Nat)
  | fail
deriving DecidableEq, Repr

/-- build_regex_range_nfa of src/regex.c: one state whose lower bound
is the start of the node and whose upper bound is the end of the node
plus one (the source adds one to a bound that parse_literal already
stored in exclusive form); the char fields truncate to a byte. -/
def build_regex_range_nfa (nfa : RegexNfa) (start stop : Nat) : BuildOut :=
  let p := add_regex_state nfa
  let nfa1 := set_regex_state p.1 p.2 fun st =>
    { st with lower := start % 256, upper := (stop + 1) % 256, end_ := -1 }
  BuildOut.ok nfa1 p.2 p.2

/-- build_regex_nfa_from_node of src/regex.c together with the node
builders it dispatches to.  The sequence and branch builders are the
stubs of the source: they return success without growing the automaton
and without writing the out-parameters, so the first and last values
of the caller are passed through unchanged.  The loop case follows
build_regex_loop_nfa except for its first assignment, which is written
through an identifier the source never declares (the C file does not
compile); that single assignment has no counterpart here.  A reference
node falls to the default case of the switch and returns -1. -/
def build_regex_nfa_from_node : RegexNfa → RegexNode → Nat → Nat → BuildOut
  | nfa, RegexNode.sequence _ _, first, last => BuildOut.ok nfa first last
  | nfa, RegexNode.branch _ _, first, last => BuildOut.ok nfa first last
  | nfa, RegexNode.range a b, _, _ => build_regex_range_nfa nfa a b
  | nfa, RegexNode.loop body, first, last =>
    (match build_regex_nfa_from_node nfa body first last with
     | BuildOut.fail => BuildOut.fail
     | BuildOut.ok nfa1 body_first body_last =>
       let p := add_regex_state nfa1
       let nfa2 := set_regex_state p.1 p.2 fun st =>
         { st with lower := 0, upper := 0, end_ := -1 }
       let nfa3 := set_regex_state nfa2 body_last fun st => { st with then_ := p.2 }
       BuildOut.ok nfa3 body_first p.2)
  | _, RegexNode.reference _, _, _ => BuildOut.fail

/-- build_regex_nfa of src/regex.c: build the fragment of one symbol
and wire it between the dispatch state and an accept marker carrying
the symbol index.  The first and last locals of the source are
uninitialized; they are modelled as zero, which the executed paths of
the theorems below never read before assignment. -/
def build_regex_nfa (nfa : RegexNfa) (start : Nat) (sym : RegexSymbol) (id : Int) :
    Option RegexNfa :=
  match sym.expression with
  | none => none
  | some node =>
    match build_regex_nfa_from_node nfa node 0 0 with
    | BuildOut.fail => none
    | BuildOut.ok nfa1 first last =>
      let nfa2 := set_regex_state nfa1 start fun st => { st with then_ := first }
      let nfa3 := set_regex_state nfa2 last fun st =>
        { st with then_ := 0, otherwise := 0, end_ := id }
      some nfa3

/-- Counting loop of copy_regex_symbol_names in src/regex.c: the count
advances only while the successor link of the cursor is set, so the
last entry of a non-empty list is never counted; on an empty list the
cursor is NULL and the loop guard dereferences it. -/
def copy_count : List RegexSymbol → Option Nat
  | [] => none
  | [_] => some 0
  | _ :: b :: rest => (copy_count (b :: rest)).map (· + 1)

/-- copy_regex_symbol_names of src/regex.c: copy the first count names
of the table, count being the result of the counting loop. -/
def copy_regex_symbol_names (syms : List RegexSymbol) :
    Option (List (List Char) × Nat) :=
  (copy_count syms).map fun c => ((syms.map (fun sym => sym.name)).take c, c)

/-- Symbol loop of parse_regex_nfa in src/regex.c.  The guard is the
successor link of the cursor, so the loop body runs for every entry
except the last one and for none when the table has one entry; the
lexeme flag is never consulted.  The returned trace lists the symbols
a fragment was built for.  Inside the body the branch taken when the
successor link is NULL is dead code in the source (the guard has just
established the opposite) and is dropped here. -/
def parse_regex_nfa_loop (nfa : RegexNfa) (start : Nat) (index : Int) :
    List RegexSymbol → Option (RegexNfa × List RegexSymbol)
  | [] => none
  | [_] => some (nfa, [])
  | sym :: next :: rest =>
    let nfa1 := set_regex_state nfa start fun st =>
      { st with lower := 0, upper := 0, end_ := -1 }
    match build_regex_nfa nfa1 start sym index with
    | none => none
    | some nfa2 =>
      let p := add_regex_state nfa2
      let nfa3 := set_regex_state p.1 start fun st => { st with otherwise := p.2 }
      match parse_regex_nfa_loop nfa3 p.2 (index + 1) (next :: rest) with
      | none => none
      | some (nfa4, built) => some (nfa4, sym :: built)

/-- parse_regex_nfa of src/regex.c from the point where the symbol
table exists: copy the symbol names, allocate the first dispatch state
and run the symbol loop.  none models the -1 return (and the NULL
dereference of the name-copy loop on an empty table). -/
def parse_regex_nfa (tbl : List RegexSymbol) : Option (RegexNfa × List RegexSymbol) :=
  match copy_regex_symbol_names tbl with
  | none => none
  | some (names, _count) =>
    let nfa0 : RegexNfa := { states := [], symbols := names }
    let p := add_regex_state nfa0
    parse_regex_nfa_loop p.1 p.2 0 tbl

/-- struct regex_matcher of src/regex.h. -/
structure RegexMatcher where
  nfa : RegexNfa
  stack : List Nat
  size : Nat
  len : Nat
  symbol : Nat
deriving DecidableEq, Repr

/-- match_regex of src/regex.c: the body of the source function is a
bare return 0 — it inspects neither the automaton nor the input and
writes nothing to the matcher. -/
def match_regex (m : RegexMatcher) (_input : List Char) : Int × RegexMatcher :=
  (0, m)

end Db

namespace Db

/-- Test fixture: a lexeme symbol named a matching the byte x. -/
def symA : RegexSymbol :=
  { name := ['a'], lexeme := true, expression := some (RegexNode.range 120 121) }

/-- Test fixture: a fragment symbol named f matching the byte y. -/
def symF : RegexSymbol :=
  { name := ['f'], lexeme := false, expression := some (RegexNode.range 121 122) }

/-- Test fixture: a lexeme symbol named c matching the byte z. -/
def symC : RegexSymbol :=
  { name := ['c'], lexeme := true, expression := some (RegexNode.range 122 123) }

/-- Test fixture: a symbol named b that has no expression. -/
def symB_undef : RegexSymbol :=
  { name := ['b'], lexeme := false, expression := none }

/-- Test fixture: a symbol named ab without an expression. -/
def symAB : RegexSymbol :=
  { name := ['a', 'b'], lexeme := true, expression := none }

/-- Test fixture: parser state over the buffer ab whose table already
holds symAB. -/
def sC8 : ParserState :=
  { buf := ['a', 'b'], pos := 0, err := none, line := 1, col := 1, syms := [symAB] }

/-- Test fixture: symbol table where the lazily created symbol b never
received an expression. -/
def symsC6 : List RegexSymbol :=
  [{ name := ['a'], lexeme := true, expression := some (RegexNode.reference 1) },
   symB_undef]

/-- Test fixture: a completeness-checked table whose first symbol is a
reference to the second. -/
def tblC3 : List RegexSymbol :=
  [{ name := ['a'], lexeme := true, expression := some (RegexNode.reference 1) },
   { name := ['b'], lexeme := true, expression := some (RegexNode.range 120 121) }]

/-- Test fixture: parser state at the second definition of symbol a. -/
def sC7 : ParserState :=
  { buf := ['@', 'a', ' ', '"', 'y', '"', ';'], pos := 0, err := none,
    line := 1, col := 1, syms := [symA] }

theorem regex_symbol_name_eq_iff : ∀ a b : List Char, regex_symbol_name_eq a b = true ↔ a = b := by
  intro a
  induction a with
  | nil => intro b; cases b <;> simp [regex_symbol_name_eq]
  | cons x xs ih =>
    intro b
    cases b with
    | nil => simp [regex_symbol_name_eq]
    | cons y ys =>
      simp [regex_symbol_name_eq, Bool.and_eq_true, beq_iff_eq, ih ys, List.cons.injEq]

theorem find_regex_symbol_of_mem (name : List Char) :
    ∀ syms : List RegexSymbol, (∃ sym ∈ syms, sym.name = name) →
    ∃ i sym, find_regex_symbol name syms = some i ∧
      syms.get? i = some sym ∧ sym.name = name := by
  intro syms
  induction syms with
  | nil =>
    rintro ⟨sym, hmem, _⟩
    cases hmem
  | cons a rest ih =>
    rintro ⟨sym, hmem, hname⟩
    by_cases heq : regex_symbol_name_eq a.name name = true
    · exact ⟨0, a, by simp [find_regex_symbol, heq], rfl,
        (regex_symbol_name_eq_iff _ _).mp heq⟩
    · have hane : a.name ≠ name := fun hc => heq ((regex_symbol_name_eq_iff _ _).mpr hc)
      have hrest : ∃ sym ∈ rest, sym.name = name := by
        cases List.mem_cons.mp hmem with
        | inl h => exact absurd (h ▸ hname) hane
        | inr h => exact ⟨sym, h, hname⟩
      obtain ⟨i, sym', hfind, hget, hname'⟩ := ih hrest
      refine ⟨i + 1, sym', ?_, by simpa using hget, hname'⟩
      simp [find_regex_symbol, Bool.eq_false_iff.mpr heq, hfind]

theorem find_regex_symbol_none (name : List Char) :
    ∀ syms : List RegexSymbol, (∀ sym ∈ syms, sym.name ≠ name) →
    find_regex_symbol name syms = none := by
  intro syms
  induction syms with
  | nil => intro _; rfl
  | cons a rest ih =>
    intro h
    have ha : regex_symbol_name_eq a.name name = false :=
      Bool.eq_false_iff.mpr fun hc =>
        h a (List.mem_cons_self a rest) ((regex_symbol_name_eq_iff _ _).mp hc)
    simp [find_regex_symbol, ha, ih fun sym hm => h sym (List.mem_cons_of_mem a hm)]

theorem check_regex_symbols_undef :
    ∀ syms : List RegexSymbol, (∃ sym ∈ syms, sym.expression = none) →
    (check_regex_symbols syms).1 = -1 ∧
    ∃ sym ∈ syms, sym.expression = none ∧ (check_regex_symbols syms).2 = some sym.name := by
  intro syms
  induction syms with
  | nil =>
    rintro ⟨sym, hmem, _⟩
    cases hmem
  | cons a rest ih =>
    rintro ⟨sym, hmem, hexp⟩
    cases ha : a.expression with
    | none =>
      refine ⟨by simp [check_regex_symbols, ha],
        a, List.mem_cons_self a rest, ha, by simp [check_regex_symbols, ha]⟩
    | some e =>
      have hrest : ∃ sym ∈ rest, sym.expression = none := by
        cases List.mem_cons.mp hmem with
        | inl h =>
          subst h
          rw [ha] at hexp
          cases hexp
        | inr h => exact ⟨sym, h, hexp⟩
      obtain ⟨h1, sym', hmem', hexp', h2⟩ := ih hrest
      exact ⟨by simp [check_regex_symbols, ha, h1],
        sym', List.mem_cons_of_mem a hmem', hexp',
        by simp [check_regex_symbols, ha, h2]⟩

theorem parser_has_more_of_get? (s : ParserState) (c : Char)
    (h : s.buf.get? s.pos = some c) : parser_has_more s = true := by
  have hlt : s.pos < s.buf.length := by
    by_contra hle
    rw [List.get?_eq_none.mpr (Nat.le_of_not_lt hle)] at h
    cases h
  simp [parser_has_more, bne_iff_ne, Nat.ne_of_lt hlt]

theorem parser_skip_ok (s : ParserState) (c : Char)
    (h : s.buf.get? s.pos = some c) :
    ∃ s', parser_skip s = (PRes.ok (), s') ∧ s'.buf = s.buf ∧ s'.pos = s.pos + 1 ∧
      s'.err = s.err ∧ s'.syms = s.syms := by
  by_cases hn : is_newline c
  · refine ⟨{ s with pos := s.pos + 1, line := s.line + 1, col := 1 }, ?_, rfl, rfl, rfl, rfl⟩
    unfold parser_skip
    rw [h]
    simp [hn]
  · refine ⟨{ s with pos := s.pos + 1, col := s.col + 1 }, ?_, rfl, rfl, rfl, rfl⟩
    unfold parser_skip
    rw [h]
    simp [hn]

end Db

namespace Db

theorem sanity_parse_single_lexeme :
    parse_regex_symbols 30 ['@', 'a', ' ', '"', 'x', '"', ';'] =
      PRes.ok (some [{ name := ['a'], lexeme := true,
                       expression := some (RegexNode.range 120 121) }]) := by
  rfl

theorem sanity_parse_range :
    (parse_regex_range (init_parser_state ['[', '0', '-', '9', ']'])).1 =
      PRes.ok (some (RegexNode.range 48 57)) := by
  rfl

theorem sanity_parse_undefined_reference :
    parse_regex_symbols 30 ['@', 'a', ' ', '$', 'b', ';'] = PRes.ok none := by
  rfl

theorem sanity_parse_duplicate :
    parse_regex_symbols 30
        ['@', 'a', ' ', '"', 'x', '"', ';', ' ', '@', 'a', ' ', '"', 'y', '"', ';'] =
      PRes.ok none := by
  rfl

/-- C1: match_regex of src/regex.c is a stub whose body is a bare
return 0: for every matcher and every input it reports 0 — the value
its header documents as success — and writes neither a match length
nor a symbol to the matcher.  In particular, on the empty automaton,
where no dispatch entry exists and no entry can accept the input y,
the result is still 0 rather than the documented -1 for no match, and
the matcher is left untouched; the companion match_regex_nfa of
src/regex_nfa.c contains a syntax error and references undeclared
variables, so no best-accept selection is implemented anywhere. -/
theorem c1_match_regex_stub :
    (∀ (m : RegexMatcher) (input : List Char), match_regex m input = (0, m)) ∧
    match_regex { nfa := { states := [], symbols := [] },
                  stack := [], size := 0, len := 0, symbol := 0 } ['y'] =
      (0, { nfa := { states := [], symbols := [] },
            stack := [], size := 0, len := 0, symbol := 0 }) ∧
    (0 : Int) ≠ -1 := by
  exact ⟨fun _ _ => rfl, rfl, by decide⟩

/-- C2: the parser half of the claim holds — parse_literal turns the
character a (byte 97) into the range node with start 97 and stop 98,
and a longer literal into a sequence of such nodes — but the state
compiled from that node by build_regex_range_nfa has exclusive upper
bound 99, not 98 as the claim states, because the builder adds one to
a bound the literal parser already stored in exclusive form; the
compiled state therefore accepts the two bytes 97 and 98. -/
theorem c2_literal_range_state :
    (parse_literal 10 (init_parser_state ['"', 'a', '"'])).1 =
      PRes.ok (some (RegexNode.range 97 98)) ∧
    (parse_literal 10 (init_parser_state ['"', 'a', 'b', '"'])).1 =
      PRes.ok (some (RegexNode.sequence (RegexNode.range 97 98) (RegexNode.range 98 99))) ∧
    build_regex_range_nfa { states := [], symbols := [] } 97 98 =
      BuildOut.ok { states := [{ lower := 97, upper := 99, then_ := 0,
                                 otherwise := 0, end_ := -1 }],
                    symbols := [] } 0 0 ∧
    (99 : Nat) ≠ 97 + 1 := by
  exact ⟨rfl, rfl, rfl, by decide⟩

/-- C3: a reference node never compiles — build_regex_nfa_from_node
has no case for it and falls to the default branch returning -1 — so
on the completeness-checked table tblC3, where symbol a is a reference
to symbol b, parse_regex_nfa fails although allocation never fails in
this model; the claim that compilation of a checked table fails only
on resource exhaustion is violated by the code. -/
theorem c3_reference_compilation_fails :
    (∀ (nfa : RegexNfa) (i first last : Nat),
        build_regex_nfa_from_node nfa (RegexNode.reference i) first last = BuildOut.fail) ∧
    (check_regex_symbols tblC3).1 = 0 ∧
    parse_regex_nfa tblC3 = none := by
  exact ⟨fun _ _ _ _ => rfl, rfl, rfl⟩

/-- C4: the symbol loop of parse_regex_nfa and the counting loop of
copy_regex_symbol_names both advance on the successor link, so the
last symbol of the table is never processed and the lexeme flag is
never consulted: a table holding the single lexeme symA produces an
automaton with no built fragment and an empty name table, and the
table [symA, symF, symC] builds fragments for the lexeme symA and the
fragment symF while omitting the lexeme symC — contradicting the
claimed dispatch chain of exactly the lexeme symbols. -/
theorem c4_dispatch_chain_wrong :
    (parse_regex_nfa [symA]).map (fun p => p.2) = some [] ∧
    (parse_regex_nfa [symA]).map (fun p => p.1.symbols) = some [] ∧
    copy_regex_symbol_names [symA] = some ([], 0) ∧
    symA.lexeme = true ∧
    (parse_regex_nfa [symA, symF, symC]).map (fun p => p.2) = some [symA, symF] ∧
    symF.lexeme = false ∧
    symC.lexeme = true := by
  exact ⟨rfl, rfl, rfl, rfl, rfl, rfl, rfl⟩

/-- C5: inside a literal the escape branch of parse_literal records
the escaped flag without skipping the character, so whenever the
parser stands on a backslash inside a literal the loop re-reads the
same position forever: for every amount of fuel the model reports fuel
exhaustion with the state unchanged, which is the non-termination of
the source loop.  Inside a range bound the claim holds: after a
backslash the following character becomes the bound whatever its
syntactic meaning. -/
theorem c5_literal_escape_diverges :
    (∀ (fuel : Nat) (escaped : Bool) (tree : List RegexNode) (s : ParserState),
        s.buf.get? s.pos = some '\\' →
        parse_literal_loop fuel escaped tree s = (PRes.fuelOut, s)) ∧
    (∀ (s : ParserState) (c : Char),
        s.buf.get? s.pos = some '\\' → s.buf.get? (s.pos + 1) = some c →
        ∃ s', parse_regex_range_bound s = (PRes.ok (some c), s')) := by
  constructor
  · intro fuel
    induction fuel with
    | zero => intro escaped tree s h; rfl
    | succ n ih =>
      intro escaped tree s h
      have hm : parser_has_more s = true := parser_has_more_of_get? s _ h
      have hpk : parser_peek s = PRes.ok '\\' := by
        unfold parser_peek
        rw [h]
      simp only [parse_literal_loop, hm, Bool.not_true, Bool.false_eq_true, if_false, hpk, pb]
      simp only [REGEX_PARSER_ESCAPE, beq_self_eq_true, if_true]
      exact ih true tree s h
  · intro s c h1 h2
    have hm : parser_has_more s = true := parser_has_more_of_get? s _ h1
    have hpk : parser_peek s = PRes.ok '\\' := by
      unfold parser_peek
      rw [h1]
    obtain ⟨s1, hs1, hbuf1, hpos1, _, _⟩ := parser_skip_ok s _ h1
    have h2' : s1.buf.get? s1.pos = some c := by
      rw [hbuf1, hpos1]
      exact h2
    have hm1 : parser_has_more s1 = true := parser_has_more_of_get? s1 _ h2'
    have hpk1 : parser_peek s1 = PRes.ok c := by
      unfold parser_peek
      rw [h2']
    obtain ⟨s2, hs2, _, _, _, _⟩ := parser_skip_ok s1 _ h2'
    refine ⟨s2, ?_⟩
    simp only [parse_regex_range_bound, hm, Bool.not_true, Bool.false_eq_true, if_false,
      hpk, pb, hs1, REGEX_PARSER_ESCAPE, beq_self_eq_true, if_true,
      hm1, hpk1, hs2]

/-- C5 witness: a concrete literal body starting with a backslash
never terminates at fuel 7, and the escaped closing bracket becomes an
ordinary range bound. -/
theorem c5_witness :
    parse_literal_loop 7 false [] (init_parser_state ['\\', 'x', '"']) =
      (PRes.fuelOut, init_parser_state ['\\', 'x', '"']) ∧
    ∃ s', parse_regex_range_bound (init_parser_state ['\\', ']']) =
      (PRes.ok (some ']'), s') := by
  exact ⟨c5_literal_escape_diverges.1 7 false [] _ rfl,
    c5_literal_escape_diverges.2 _ ']' rfl rfl⟩

/-- C6: whenever some registered symbol has no expression,
check_regex_symbols returns -1 and logs the name of such a symbol, and
the tail of parse_regex_symbols returns NULL instead of the table —
whatever the error field of the parser holds. -/
theorem c6_undefined_symbol (syms : List RegexSymbol)
    (h : ∃ sym ∈ syms, sym.expression = none) :
    (check_regex_symbols syms).1 = -1 ∧
    (∃ sym ∈ syms, sym.expression = none ∧
      (check_regex_symbols syms).2 = some sym.name) ∧
    (∀ s : ParserState, s.syms = syms → parse_regex_symbols_finish s = none) := by
  obtain ⟨h1, h2⟩ := check_regex_symbols_undef syms h
  refine ⟨h1, h2, ?_⟩
  intro s hs
  unfold parse_regex_symbols_finish
  rw [hs, h1]
  cases he : s.err.isSome <;> simp

/-- C6 witness: in the table left behind by the grammar where a is
defined as a reference to b and b is never defined, the check fails
and the parse returns NULL. -/
theorem c6_witness :
    (check_regex_symbols symsC6).1 = -1 ∧
    parse_regex_symbols_finish
      { buf := [], pos := 0, err := none, line := 1, col := 1, syms := symsC6 } = none := by
  have h := c6_undefined_symbol symsC6 ⟨symB_undef, by decide, rfl⟩
  exact ⟨h.1, h.2.2 _ rfl⟩

/-- C7: when the identifier scanned by parse_symbol resolves through
get_or_create_regex_symbol to a symbol whose expression is already
set, parse_symbol returns -1 with the duplicate-definition error
recorded at the position of the second definition, and the symbol
table is left exactly as get_or_create returned it: the existing
expression is not replaced. -/
theorem c7_duplicate_definition (fuel : Nat) (s s1 s2 : ParserState) (lex : Bool)
    (nstart nlen idx : Nat) (sym : RegexSymbol) (e : RegexNode)
    (h1 : scan_symbol_name s = (PRes.ok (lex, nstart, nlen), s1))
    (h2 : get_or_create_regex_symbol nstart nlen s1 = (PRes.ok (some idx), s2))
    (h3 : s2.syms.get? idx = some sym)
    (h4 : sym.expression = some e) :
    parse_symbol fuel s = (PRes.ok (-1), { s2 with err := some err_multiple_defs }) ∧
    ({ s2 with err := some err_multiple_defs } : ParserState).syms.get? idx = some sym := by
  constructor
  · unfold parse_symbol
    rw [h1]
    simp only [pb]
    rw [h2]
    simp only [pb]
    rw [h3]
    simp [h4]
  · simpa using h3

/-- C7 witness: parsing the second definition of symbol a over a table
where a already has the expression for the literal x fails with the
duplicate error and leaves the table unchanged. -/
theorem c7_witness :
    parse_symbol 50 sC7 =
      (PRes.ok (-1), { buf := ['@', 'a', ' ', '"', 'y', '"', ';'], pos := 2,
                       err := some err_multiple_defs, line := 1, col := 3,
                       syms := [symA] }) ∧
    ({ buf := ['@', 'a', ' ', '"', 'y', '"', ';'], pos := 2,
       err := some err_multiple_defs, line := 1, col := 3,
       syms := [symA] } : ParserState).syms.get? 0 = some symA := by
  exact c7_duplicate_definition 50 sC7
    { buf := ['@', 'a', ' ', '"', 'y', '"', ';'], pos := 2, err := none,
      line := 1, col := 3, syms := [symA] }
    { buf := ['@', 'a', ' ', '"', 'y', '"', ';'], pos := 2, err := none,
      line := 1, col := 3, syms := [symA] }
    true 1 1 0 symA (RegexNode.range 120 121) rfl rfl rfl rfl

/-- C8: under the name-length bound, get_or_create_regex_symbol
returns an existing symbol whose stored name equals the requested
bytes exactly and leaves the table untouched when such a symbol
exists, and otherwise appends a fresh symbol with no expression at the
tail of the table, preserving the previously registered entries and
their order; the name comparison of the source coincides with
byte-for-byte list equality, so no case folding happens. -/
theorem c8_get_or_create (s : ParserState) (nstart nlen : Nat)
    (h : nlen + 1 ≤ MAX_REGEX_SYMBOL_NAME_LENGTH) :
    ((∃ sym ∈ s.syms, sym.name = parser_copy_string s nstart nlen) →
      ∃ i sym, get_or_create_regex_symbol nstart nlen s = (PRes.ok (some i), s) ∧
        s.syms.get? i = some sym ∧ sym.name = parser_copy_string s nstart nlen) ∧
    ((∀ sym ∈ s.syms, sym.name ≠ parser_copy_string s nstart nlen) →
      get_or_create_regex_symbol nstart nlen s =
        (PRes.ok (some s.syms.length),
         { s with syms := s.syms ++
             [{ name := parser_copy_string s nstart nlen, lexeme := false,
                expression := none }] })) ∧
    (∀ a b : List Char, regex_symbol_name_eq a b = true ↔ a = b) := by
  have hlen : ¬(nlen + 1 > MAX_REGEX_SYMBOL_NAME_LENGTH) := Nat.not_lt.mpr h
  refine ⟨?_, ?_, regex_symbol_name_eq_iff⟩
  · intro hex
    obtain ⟨i, sym, hfind, hget, hname⟩ :=
      find_regex_symbol_of_mem (parser_copy_string s nstart nlen) s.syms hex
    refine ⟨i, sym, ?_, hget, hname⟩
    unfold get_or_create_regex_symbol
    rw [if_neg hlen]
    simp only [hfind]
  · intro hall
    have hfind := find_regex_symbol_none (parser_copy_string s nstart nlen) s.syms hall
    unfold get_or_create_regex_symbol
    rw [if_neg hlen]
    simp only [hfind]

/-- C8 witness: looking up the name ab in a table already holding
symAB returns that symbol and leaves the table unchanged. -/
theorem c8_witness :
    ∃ i sym, get_or_create_regex_symbol 0 2 sC8 = (PRes.ok (some i), sC8) ∧
      sC8.syms.get? i = some sym ∧ sym.name = parser_copy_string sC8 0 2 := by
  exact (c8_get_or_create sC8 0 2 (by decide)).1 ⟨symAB, by decide, by decide⟩

/-- C9: destroy_regex_node frees exactly the nodes owned through
Sequence, Branch and Loop edges — one free per owned node — and frees
a reference node without following the reference, so the expression of
a referenced symbol is never destroyed through a reference edge; but
destroy_regex_symbols frees nothing at all, because the per-symbol
destructor of the source has an empty body, so the node of the symbol
symA is freed zero times rather than exactly once. -/
theorem c9_destruction_trace :
    (∀ i : Nat, destroy_regex_node (RegexNode.reference i) = [RegexNode.reference i]) ∧
    (∀ t : RegexNode, (destroy_regex_node t).length = owned_count t) ∧
    destroy_regex_symbols [symA] = [] ∧
    (destroy_regex_symbols [symA]).count (RegexNode.range 120 121) = 0 ∧
    (0 : Nat) ≠ 1 := by
  refine ⟨fun _ => rfl, ?_, rfl, rfl, by decide⟩
  intro t
  induction t with
  | sequence l r ihl ihr =>
    simp [destroy_regex_node, owned_count, List.length_append, ihl, ihr]
    omega
  | branch l r ihl ihr =>
    simp [destroy_regex_node, owned_count, List.length_append, ihl, ihr]
    omega
  | range a b => rfl
  | loop b ihb =>
    simp [destroy_regex_node, owned_count, List.length_append, ihb]
  | reference i => rfl

/-- C10: the main loop of parse_regex_symbols tests for end of input
only before skipping whitespace and peeks unconditionally afterwards,
so a grammar whose last statement is followed by a newline drives
parser_peek to the exhausted position — the assertion of parser_peek
is violated and the read is out of bounds, modelled by the crash
outcome. -/
theorem c10_trailing_whitespace_oob :
    parse_regex_symbols 30 ['@', 'a', ' ', '"', 'x', '"', ';', '\n'] = PRes.crash := by
  rfl

end Db
